import Mathlib

/-!
Shallow embedding of the moderation-queue core of `src/auto_bot.py`.

Modelling conventions:
* Time is measured in integer microseconds (`Nat`); Python `datetime`
  arithmetic is microsecond-precise, and `int(td.total_seconds())`
  truncates toward zero, which on the nonnegative values arising here
  equals flooring, i.e. `Int.div` by `1000000`.
* Python dicts (`queue`, `user_submissions`, `context.user_data`) are
  association lists keyed by ids.
* Python string truthiness (`a or b`) is modelled by `pyOrS`; an optional
  field read with `dict.get` defaulting to `None` is an `Option String`,
  and `x or y` applied to it first defaults the option to the empty
  string (both `None` and `""` are falsy).
* Transport calls (Telegram sends) are modelled as an emitted `Effect`
  list; values the transport returns (message ids of delivered admin
  notifications, success of the channel send) enter as parameters.
* Each code path that returns to the caller is tagged with an outcome
  constructor so that statements can refer to which branch returned.
-/

namespace AutoBot

/-- Configuration constants fixed in the source (lines 31-33). -/
def MAX_QUEUE_SIZE : Nat := 50

def RATE_LIMIT_COUNT : Nat := 3

def RATE_LIMIT_WINDOW : Nat := 300

/-- Microseconds per second; timestamps are in microseconds. -/
def usPerSecond : Nat := 1000000

/-- The rate window in microseconds (`timedelta(seconds=RATE_LIMIT_WINDOW)`). -/
def windowUs : Nat := RATE_LIMIT_WINDOW * usPerSecond

/-- Python `a or b` on strings: empty string is falsy. -/
def pyOrS (a b : String) : String := if a = "" then b else a

/-- Python `s or None` on a string: empty becomes `None`. -/
def strOpt (s : String) : Option String := if s = "" then none else some s

/-- Minimum of a list of naturals (Python `min`); `0` on the empty list,
which the source never passes (guarded by a length check). -/
def listMin : List Nat → Nat
  | [] => 0
  | [x] => x
  | x :: y :: t => min x (listMin (y :: t))

/-- The incoming Telegram message, as far as the core inspects it:
`text`/`caption` with `""` for absent (Python falsy), and presence flags
for the four media kinds. -/
structure Msg where
  text : String
  caption : String
  photo : Bool
  video : Bool
  document : Bool
  voice : Bool
deriving DecidableEq

/-- One queue entry, mirroring the dict built at lines 175-189 of the
source.  `editedText` starts as `None`; `editedCaption` is a key only
added by the edit handler, so reading it defaults to `None` as well. -/
structure Entry where
  chatId : Int
  messageId : Nat
  hasMedia : Bool
  text : String
  caption : String
  msg : Msg
  senderInfo : String
  senderId : Int
  senderName : String
  senderUsername : Option String
  editedText : Option String
  editedCaption : Option String
  timestamp : Nat
  adminMessages : List (Int × Nat)
deriving DecidableEq

/-- The shared mutable state: the moderation queue dict, the id counter,
the per-user rate-limit timestamp lists, and the per-user
`editing_qid` markers (`context.user_data`). -/
structure BotState where
  queue : List (Nat × Entry)
  nextQid : Nat
  userSubmissions : List (Int × List Nat)
  editing : List (Int × Nat)
deriving DecidableEq

/-- Dict lookup `queue.get(qid, None)`. -/
def qlookup (q : List (Nat × Entry)) (qid : Nat) : Option Entry :=
  (q.find? (fun p => p.1 == qid)).map Prod.snd

/-- Dict removal `queue.pop(qid, None)` (idempotent). -/
def qremove (q : List (Nat × Entry)) (qid : Nat) : List (Nat × Entry) :=
  q.filter (fun p => p.1 != qid)

/-- In-place mutation of the entry stored under `qid`. -/
def qupdate (q : List (Nat × Entry)) (qid : Nat) (e : Entry) :
    List (Nat × Entry) :=
  q.map (fun p => if p.1 == qid then (qid, e) else p)

/-- `user_submissions[uid]` (defaultdict: missing key reads as `[]`). -/
def subsOf (st : BotState) (uid : Int) : List Nat :=
  ((st.userSubmissions.find? (fun p => p.1 == uid)).map Prod.snd).getD []

/-- Assignment `user_submissions[uid] = l`. -/
def setSubs (st : BotState) (uid : Int) (l : List Nat) : BotState :=
  { st with userSubmissions :=
      (uid, l) :: st.userSubmissions.filter (fun p => p.1 != uid) }

/-- `context.user_data.get('editing_qid')` for a given user. -/
def editingOf (st : BotState) (uid : Int) : Option Nat :=
  (st.editing.find? (fun p => p.1 == uid)).map Prod.snd

/-- `context.user_data['editing_qid'] = qid`. -/
def setEditing (st : BotState) (uid : Int) (qid : Nat) : BotState :=
  { st with editing := (uid, qid) :: st.editing.filter (fun p => p.1 != uid) }

/-- `context.user_data.pop('editing_qid', None)`. -/
def clearEditing (st : BotState) (uid : Int) : BotState :=
  { st with editing := st.editing.filter (fun p => p.1 != uid) }

/-- `check_rate_limit` (source lines 58-71).  Returns the pruned
timestamp list that the function stores back into
`user_submissions[user_id]`, the `allowed` flag, and `wait_seconds`.
`int((wait_until - now).total_seconds())` truncates toward zero, which
is `Int.div` of the microsecond difference by `usPerSecond`. -/
def check_rate_limit (subs : List Nat) (now : Nat) :
    List Nat × Bool × Int :=
  let pruned := subs.filter (fun ts => decide (now - ts < windowUs))
  if RATE_LIMIT_COUNT ≤ pruned.length then
    let oldest := listMin pruned
    (pruned, false,
      Int.tdiv ((oldest : Int) + (windowUs : Int) - (now : Int)) (usPerSecond : Int))
  else
    (pruned, true, 0)

/-- Observable transport effects, one constructor per send site in the
source (line numbers refer to `src/auto_bot.py`). -/
inductive Effect
  | rateLimitedReply (chatId : Int) (waitSeconds : Int)
  | queueFullReply (chatId : Int)
  | editOnlyTextReply (chatId : Int)
  | queuedReply (chatId : Int) (position : Nat) (qsize : Nat)
  | adminNewSubmission (adminId : Int) (qid : Nat)
  | notAuthorizedCb
  | notFoundCb
  | detailsView (qid : Nat)
  | backView (qid : Nat) (preview : String)
  | editPrompt (qid : Nat)
  | editCancelledCb
  | rejectedCb (qid : Nat)
  | rejectedNotice (chatId : Int)
  | publishText (text : String)
  | publishPhoto (caption : Option String)
  | publishVideo (caption : Option String)
  | publishDocument (caption : Option String)
  | publishVoice (caption : Option String)
  | approvedCb (qid : Nat)
  | approvedNotice (chatId : Int)
  | postErrorCb (qid : Nat)
  | notAuthorizedReply (chatId : Int)
  | editNotFoundReply (chatId : Int)
  | adminViewUpdate (adminId : Int) (qid : Nat)
  | editDoneReply (chatId : Int)
  | cancelEditReply (chatId : Int)
deriving DecidableEq

/-- Which return point of `handle_edit_text` was taken. -/
inductive EtOutcome
  | unauthorized
  | noSession
  | targetGone (qid : Nat)
  | applied (qid : Nat)
deriving DecidableEq

/-- Which return point of `handle_private_message` was taken. -/
inductive PmOutcome
  | rateLimited (waitSeconds : Int)
  | queueFull
  | editApplied (qid : Nat)
  | editTargetGone (qid : Nat)
  | editNoSession
  | editUnauthorized
  | editOnlyText
  | accepted (qid : Nat) (position : Nat)
deriving DecidableEq

/-- Insertion into a sorted list of keys, used to model Python
`sorted(queue.keys())`. -/
def insertSorted (x : Nat) : List Nat → List Nat
  | [] => [x]
  | y :: ys => if x ≤ y then x :: y :: ys else y :: insertSorted x ys

/-- Python `sorted` on the key list. -/
def sortKeys (l : List Nat) : List Nat := l.foldr insertSorted []

/-- `get_queue_position` (source lines 50-56): 1-based index of `qid`
among the sorted keys, `None` when absent. -/
def get_queue_position (q : List (Nat × Entry)) (qid : Nat) : Option Nat :=
  match (sortKeys (q.map Prod.fst)).findIdx? (fun k => k == qid) with
  | some i => some (i + 1)
  | none => none

/-- `format_sender_info` (source lines 73-78), display-only. -/
def format_sender_info (name : String) (username : Option String) (uid : Int) :
    String :=
  "Sender: " ++ pyOrS name "Unknown" ++ " (" ++
    (match username with
     | some u => "@" ++ u
     | none => "No username") ++ ") id " ++ toString uid

/-- Preview truncation used for moderator views (300 characters). -/
def truncatePreview (s : String) : String :=
  if 300 < s.length then (s.take 300).push '.' else s

/-- The preview chosen by the `back` action (source lines 318-327):
edited text, else edited caption, else original text/caption/placeholder. -/
def backPreviewOf (e : Entry) : String :=
  if e.editedText.getD "" ≠ "" then e.editedText.getD ""
  else if e.editedCaption.getD "" ≠ "" then e.editedCaption.getD ""
  else pyOrS e.text (pyOrS e.caption (if e.hasMedia then "<media>" else "<empty>"))

/-- The channel sends of the approve branch (source lines 380-409):
`text_to_post = entry.get("edited_text") or entry["text"] or ""`,
`caption_to_post = entry.get("edited_caption") or entry["caption"] or ""`,
then exactly one send selected by the stored message, with
`caption=caption_to_post or None` for media. -/
def publishEffectsOf (e : Entry) : List Effect :=
  let text_to_post := pyOrS (pyOrS (e.editedText.getD "") e.text) ""
  let caption_to_post := pyOrS (pyOrS (e.editedCaption.getD "") e.caption) ""
  if e.msg.text ≠ "" then [.publishText text_to_post]
  else if e.msg.photo then [.publishPhoto (strOpt caption_to_post)]
  else if e.msg.video then [.publishVideo (strOpt caption_to_post)]
  else if e.msg.document then [.publishDocument (strOpt caption_to_post)]
  else if e.msg.voice then [.publishVoice (strOpt caption_to_post)]
  else []

/-- `handle_edit_text` (source lines 424-513).  `msgText` is
`update.message.text or ""`.  The trailing moderator-view refresh sends
are collapsed into `adminViewUpdate`/`editDoneReply` effects; they do
not touch the store. -/
def handle_edit_text (admins : List Int) (st : BotState) (uid chatId : Int)
    (msgText : String) : BotState × List Effect × EtOutcome :=
  if uid ∈ admins then
    let qid := (editingOf st uid).getD 0
    if qid = 0 then (st, [], .noSession)
    else
      match qlookup st.queue qid with
      | none => (clearEditing st uid, [.editNotFoundReply chatId], .targetGone qid)
      | some entry =>
        let entry' := if entry.hasMedia
          then { entry with editedCaption := some msgText }
          else { entry with editedText := some msgText }
        let st' := clearEditing { st with queue := qupdate st.queue qid entry' } uid
        (st', [.adminViewUpdate uid qid, .editDoneReply chatId], .applied qid)
  else (st, [.notAuthorizedReply chatId], .unauthorized)

/-- `handle_private_message` (source lines 137-237): rate-limit gate,
queue-capacity gate, edit-mode routing, then enqueue.  `sentIds` gives
the message id returned by the transport for each admin notification
(`none` = the send raised, so no view ref is stored). -/
def handle_private_message (admins : List Int) (st : BotState)
    (uid chatId : Int) (name : String) (username : Option String)
    (msg : Msg) (now : Nat) (sentIds : Int → Option Nat) :
    BotState × List Effect × PmOutcome :=
  let r := check_rate_limit (subsOf st uid) now
  let pruned := r.1
  let allowed := r.2.1
  let wait := r.2.2
  let st1 := setSubs st uid pruned
  if allowed = false then
    (st1, [.rateLimitedReply chatId wait], .rateLimited wait)
  else if MAX_QUEUE_SIZE ≤ st1.queue.length then
    (st1, [.queueFullReply chatId], .queueFull)
  else if uid ∈ admins ∧ (editingOf st1 uid).getD 0 ≠ 0 then
    if msg.text ≠ "" then
      let r2 := handle_edit_text admins st1 uid chatId msg.text
      (r2.1, r2.2.1,
        match r2.2.2 with
        | .applied q => .editApplied q
        | .targetGone q => .editTargetGone q
        | .noSession => .editNoSession
        | .unauthorized => .editUnauthorized)
    else
      (st1, [.editOnlyTextReply chatId], .editOnlyText)
  else
    let qid := st1.nextQid
    let hasMedia := msg.photo || msg.video || msg.document || msg.voice
    let entry : Entry := {
      chatId := chatId
      messageId := 0
      hasMedia := hasMedia
      text := msg.text
      caption := msg.caption
      msg := msg
      senderInfo := format_sender_info name username uid
      senderId := uid
      senderName := pyOrS name "Unknown"
      senderUsername := username
      editedText := none
      editedCaption := none
      timestamp := now
      adminMessages := admins.filterMap (fun a => (sentIds a).map (fun m => (a, m))) }
    let q1 := st1.queue ++ [(qid, entry)]
    let position := (get_queue_position q1 qid).getD 0
    let st2 := { st1 with queue := q1, nextQid := qid + 1 }
    let st3 := setSubs st2 uid (pruned ++ [now])
    (st3,
      .queuedReply chatId position q1.length ::
        admins.map (fun a => .adminNewSubmission a qid),
      .accepted qid position)

/-- `callback_handler` (source lines 261-420), sequential (single-task)
form.  `publishOk` is whether the channel send in the approve branch
returns normally; `false` models the raised exception caught at line
419. -/
def callback_handler (admins : List Int) (st : BotState) (actor : Int)
    (action : String) (qid : Nat) (publishOk : Bool) :
    BotState × List Effect :=
  if actor ∈ admins then
    match qlookup st.queue qid with
    | none => (st, [.notFoundCb])
    | some entry =>
      if action = "details" then (st, [.detailsView qid])
      else if action = "back" then
        (st, [.backView qid (truncatePreview (backPreviewOf entry))])
      else if action = "edit" then (setEditing st actor qid, [.editPrompt qid])
      else if action = "cancel_edit" then (clearEditing st actor, [.editCancelledCb])
      else if action = "reject" then
        ({ st with queue := qremove st.queue qid },
          [.rejectedCb qid, .rejectedNotice entry.chatId])
      else if action = "approve" then
        let st' := { st with queue := qremove st.queue qid }
        if publishOk then
          (st', publishEffectsOf entry ++ [.approvedCb qid, .approvedNotice entry.chatId])
        else (st', [.postErrorCb qid])
      else (st, [])
  else (st, [.notAuthorizedCb])

/-- The `/cancel` command handler `cancel_edit` (source lines 515-517).
Note that unlike the callback path it performs no admin check. -/
def cancel_edit (st : BotState) (uid chatId : Int) : BotState × List Effect :=
  (clearEditing st uid, [.cancelEditReply chatId])

/-!
Interleaved semantics of concurrent `callback_handler` invocations.

In the source, a handler for a moderate action executes two separate
critical sections on `queue_lock`: the presence check
`entry = queue.get(qid, None)` (lines 276-277) and the removal
`queue.pop(qid, None)` (lines 361-362 / 375-376); the emitted effects
are computed from the entry read in the first section.  Between the two
sections the coroutine can yield to the event loop: acquiring
`queue_lock` suspends whenever the lock is contended, and other
handlers hold the lock across transport awaits (e.g. the queue-full
reply at line 158 and the stale-edit reply at line 440 are awaited
inside `async with queue_lock`).  Each critical section is therefore
one atomic step, and distinct handler tasks may interleave between
steps.
-/

/-- Progress of one moderator-action task: before its lookup section,
between lookup and removal (carrying the entry it read), or finished
with a flag telling whether it applied (emitted its effect). -/
inductive CbPhase
  | toCheck
  | toCommit (entry : Entry)
  | finished (applied : Bool)
deriving DecidableEq

/-- One in-flight `callback_handler` invocation. -/
structure CbTask where
  actor : Int
  action : String
  qid : Nat
  phase : CbPhase
deriving DecidableEq

/-- Shared state plus in-flight tasks and the log of emitted effects. -/
structure ConcState where
  queue : List (Nat × Entry)
  tasks : List CbTask
  effects : List Effect
deriving DecidableEq

/-- Effects of the commit section of an approve/reject task (publish
assumed to succeed). -/
def commitEffects (action : String) (qid : Nat) (e : Entry) : List Effect :=
  if action = "reject" then [.rejectedCb qid, .rejectedNotice e.chatId]
  else if action = "approve" then
    publishEffectsOf e ++ [.approvedCb qid, .approvedNotice e.chatId]
  else []

/-- Run the next atomic section of task `i`.  The admin check and the
lookup section execute together (no await separates them); the commit
section pops the id and emits the effects computed from the entry read
earlier. -/
def cbStep (admins : List Int) (cs : ConcState) (i : Nat) : ConcState :=
  match cs.tasks[i]? with
  | none => cs
  | some tk =>
    match tk.phase with
    | .toCheck =>
      if tk.actor ∈ admins then
        match qlookup cs.queue tk.qid with
        | none =>
          { cs with
            tasks := cs.tasks.set i { tk with phase := .finished false }
            effects := cs.effects ++ [.notFoundCb] }
        | some e =>
          { cs with tasks := cs.tasks.set i { tk with phase := .toCommit e } }
      else
        { cs with
          tasks := cs.tasks.set i { tk with phase := .finished false }
          effects := cs.effects ++ [.notAuthorizedCb] }
    | .toCommit e =>
      { queue := qremove cs.queue tk.qid
        tasks := cs.tasks.set i { tk with phase := .finished true }
        effects := cs.effects ++ commitEffects tk.action tk.qid e }
    | .finished _ => cs

/-- Run a schedule (a list of task indices). -/
def cbRun (admins : List Int) (cs : ConcState) (sched : List Nat) : ConcState :=
  sched.foldl (cbStep admins) cs

/-- Publish-content selection as the amended specification words it:
the override is used when present and non-empty, otherwise the
original; an empty effective media caption is sent as no caption. -/
def selectedPublish (e : Entry) : List Effect :=
  let chosenText := if e.editedText.getD "" ≠ "" then e.editedText.getD "" else e.text
  let chosenCaption :=
    if e.editedCaption.getD "" ≠ "" then e.editedCaption.getD "" else e.caption
  if e.msg.text ≠ "" then [.publishText chosenText]
  else if e.msg.photo then [.publishPhoto (strOpt chosenCaption)]
  else if e.msg.video then [.publishVideo (strOpt chosenCaption)]
  else if e.msg.document then [.publishDocument (strOpt chosenCaption)]
  else if e.msg.voice then [.publishVoice (strOpt chosenCaption)]
  else []

theorem pyOrS_chain (a b : String) :
    pyOrS (pyOrS a b) "" = if a ≠ "" then a else b := by
  by_cases ha : a = "" <;> by_cases hb : b = "" <;> simp [pyOrS, ha, hb]

theorem publishEffectsOf_eq_selectedPublish (e : Entry) :
    publishEffectsOf e = selectedPublish e := by
  simp [publishEffectsOf, selectedPublish, pyOrS_chain]

theorem listMin_mem : ∀ (l : List Nat), l ≠ [] → listMin l ∈ l
  | [x], _ => by simp [listMin]
  | x :: y :: t, _ => by
    have ih := listMin_mem (y :: t) (by simp)
    rcases le_total x (listMin (y :: t)) with h | h
    · simp [listMin, min_eq_left h]
    · simp only [listMin, min_eq_right h]
      exact List.mem_cons_of_mem x ih

theorem listMin_le : ∀ (l : List Nat) (x : Nat), x ∈ l → listMin l ≤ x
  | [y], x, hx => by
    simp only [List.mem_singleton] at hx
    simp [listMin, hx]
  | y :: z :: t, x, hx => by
    simp only [List.mem_cons] at hx
    rcases hx with rfl | hx
    · simp [listMin]
    · have hrec := listMin_le (z :: t) x (List.mem_cons.mpr hx)
      calc listMin (y :: z :: t) = min y (listMin (z :: t)) := rfl
        _ ≤ listMin (z :: t) := min_le_right _ _
        _ ≤ x := hrec

theorem find?_key_cons {α : Type} (p : Int × α) (t : List (Int × α)) (u : Int) :
    (p :: t).find? (fun q => q.1 == u) =
      if p.1 = u then some p else t.find? (fun q => q.1 == u) := by
  by_cases h : p.1 = u
  · rw [if_pos h]
    exact List.find?_cons_of_pos _ (by simp [h])
  · rw [if_neg h]
    exact List.find?_cons_of_neg _ (by simp [h])

theorem find?_filter_ne {α : Type} (l : List (Int × α)) (k u : Int) (h : u ≠ k) :
    (l.filter (fun p => p.1 != k)).find? (fun p => p.1 == u) =
      l.find? (fun p => p.1 == u) := by
  induction l with
  | nil => rfl
  | cons p t ih =>
    rw [List.filter_cons]
    by_cases hk : p.1 = k
    · have h1 : (p.1 != k) = false := by simp [hk]
      have h2 : p.1 ≠ u := by
        rw [hk]
        exact fun e => h e.symm
      rw [h1, if_neg (by simp), find?_key_cons, if_neg h2, ih]
    · have h1 : (p.1 != k) = true := by simp [bne_iff_ne, hk]
      rw [h1, if_pos rfl, find?_key_cons, find?_key_cons]
      by_cases hu : p.1 = u
      · rw [if_pos hu, if_pos hu]
      · rw [if_neg hu, if_neg hu, ih]

theorem subsOf_setSubs_self (st : BotState) (uid : Int) (l : List Nat) :
    subsOf (setSubs st uid l) uid = l := by
  simp [subsOf, setSubs, List.find?_cons]

theorem subsOf_setSubs_other (st : BotState) (uid u : Int) (l : List Nat)
    (h : u ≠ uid) : subsOf (setSubs st uid l) u = subsOf st u := by
  have hu : ((uid, l).1 == u) = false := by
    simp only [beq_eq_false_iff_ne, ne_eq]
    exact fun e => h e.symm
  simp [subsOf, setSubs, List.find?_cons, hu, find?_filter_ne _ _ _ h]

theorem editingOf_clearEditing_self (st : BotState) (uid : Int) :
    editingOf (clearEditing st uid) uid = none := by
  simp only [editingOf, clearEditing]
  rw [show (st.editing.filter (fun p => p.1 != uid)).find?
        (fun p => p.1 == uid) = none from ?_]
  · rfl
  · rw [List.find?_eq_none]
    intro p hp
    have := (List.mem_filter.mp hp).2
    simp only [bne_iff_ne, ne_eq] at this
    simp [this]

theorem editingOf_clearEditing_other (st : BotState) (uid u : Int)
    (h : u ≠ uid) : editingOf (clearEditing st uid) u = editingOf st u := by
  simp [editingOf, clearEditing, find?_filter_ne _ _ _ h]

theorem editingOf_setEditing_self (st : BotState) (uid : Int) (qid : Nat) :
    editingOf (setEditing st uid qid) uid = some qid := by
  simp [editingOf, setEditing, List.find?_cons]

theorem find?_qremove_self (q : List (Nat × Entry)) (qid : Nat) :
    (qremove q qid).find? (fun p => p.1 == qid) = none := by
  rw [List.find?_eq_none]
  intro p hp
  have := (List.mem_filter.mp hp).2
  simp only [bne_iff_ne, ne_eq] at this
  simp [this]

theorem qlookup_qremove_self (q : List (Nat × Entry)) (qid : Nat) :
    qlookup (qremove q qid) qid = none := by
  simp [qlookup, find?_qremove_self]

theorem qlookup_cons (p : Nat × Entry) (t : List (Nat × Entry)) (qid : Nat) :
    qlookup (p :: t) qid = if p.1 = qid then some p.2 else qlookup t qid := by
  by_cases h : p.1 = qid
  · rw [qlookup, List.find?_cons_of_pos _ (by simp [h]), if_pos h]
    rfl
  · rw [qlookup, List.find?_cons_of_neg _ (by simp [h]), if_neg h]
    rfl

theorem qupdate_cons (p : Nat × Entry) (t : List (Nat × Entry)) (qid : Nat)
    (e' : Entry) :
    qupdate (p :: t) qid e' =
      (if p.1 = qid then (qid, e') else p) :: qupdate t qid e' := by
  by_cases h : p.1 = qid <;> simp [qupdate, h]

theorem qlookup_qupdate_self (q : List (Nat × Entry)) (qid : Nat)
    (e e' : Entry) (h : qlookup q qid = some e) :
    qlookup (qupdate q qid e') qid = some e' := by
  induction q with
  | nil => simp [qlookup] at h
  | cons p t ih =>
    rw [qupdate_cons]
    by_cases hp : p.1 = qid
    · rw [if_pos hp, qlookup_cons, if_pos rfl]
    · rw [if_neg hp, qlookup_cons, if_neg hp]
      rw [qlookup_cons, if_neg hp] at h
      exact ih h

theorem qlookup_qupdate_other (q : List (Nat × Entry)) (qid q2 : Nat)
    (e' : Entry) (h : q2 ≠ qid) :
    qlookup (qupdate q qid e') q2 = qlookup q q2 := by
  induction q with
  | nil => rfl
  | cons p t ih =>
    rw [qupdate_cons, qlookup_cons, qlookup_cons]
    by_cases hp : p.1 = qid
    · rw [if_pos hp]
      have h1 : ((qid, e') : Nat × Entry).1 ≠ q2 := fun e => h e.symm
      have h2 : p.1 ≠ q2 := by
        rw [hp]
        exact fun e => h e.symm
      rw [if_neg h1, if_neg h2, ih]
    · rw [if_neg hp]
      by_cases hq : p.1 = q2
      · rw [if_pos hq, if_pos hq]
      · rw [if_neg hq, if_neg hq, ih]

/-! Concrete sample inputs used by witnesses and counterexamples. -/

/-- A plain text message. -/
def msgText (s : String) : Msg :=
  { text := s, caption := "", photo := false, video := false
    document := false, voice := false }

/-- A photo message with caption. -/
def msgPhoto (c : String) : Msg :=
  { text := "", caption := c, photo := true, video := false
    document := false, voice := false }

/-- The entry that enqueueing `m` from chat `chat` produces (no edits yet). -/
def sampleEntry (m : Msg) (chat : Int) : Entry :=
  { chatId := chat
    messageId := 0
    hasMedia := m.photo || m.video || m.document || m.voice
    text := m.text
    caption := m.caption
    msg := m
    senderInfo := ""
    senderId := chat
    senderName := "Unknown"
    senderUsername := none
    editedText := none
    editedCaption := none
    timestamp := 0
    adminMessages := [] }

/-- The computed wait is never negative (shared helper). -/
theorem check_rate_limit_wait_nonneg (subs : List Nat) (now : Nat) :
    0 ≤ (check_rate_limit subs now).2.2 := by
  by_cases hle : RATE_LIMIT_COUNT ≤
      (subs.filter (fun ts => decide (now - ts < windowUs))).length
  · have hck : check_rate_limit subs now =
        (subs.filter (fun ts => decide (now - ts < windowUs)), false,
          Int.tdiv ((listMin (subs.filter (fun ts => decide (now - ts < windowUs))) : Int)
            + (windowUs : Int) - (now : Int)) (usPerSecond : Int)) := by
      simp [check_rate_limit, hle]
    have hne : subs.filter (fun ts => decide (now - ts < windowUs)) ≠ [] := by
      intro he
      rw [he] at hle
      simp [RATE_LIMIT_COUNT] at hle
    have hwin : now - listMin (subs.filter (fun ts => decide (now - ts < windowUs)))
        < windowUs := by
      have h2 := (List.mem_filter.mp (listMin_mem _ hne)).2
      simpa using h2
    rw [hck]
    apply Int.tdiv_nonneg
    · omega
    · norm_num [usPerSecond]
  · simp [check_rate_limit, hle]

/-- C6: the rate limiter denies exactly when the number of recorded
timestamps inside the trailing window reaches `RATE_LIMIT_COUNT`, and on
denial `waitSeconds` is `oldest + W - now` floored to whole seconds and
nonnegative, where `oldest` is the least retained timestamp and the
retained timestamps are exactly the recorded ones inside the window. -/
theorem C6_rate_limiter_spec (subs : List Nat) (now : Nat) :
    ((check_rate_limit subs now).2.1 = false ↔
        RATE_LIMIT_COUNT ≤ subs.countP (fun ts => decide (now - ts < windowUs))) ∧
    ((check_rate_limit subs now).2.1 = false →
      (check_rate_limit subs now).2.2 =
        Int.tdiv ((listMin (check_rate_limit subs now).1 : Int) + (windowUs : Int)
          - (now : Int)) (usPerSecond : Int) ∧
      0 ≤ (check_rate_limit subs now).2.2 ∧
      listMin (check_rate_limit subs now).1 ∈ (check_rate_limit subs now).1 ∧
      (∀ t ∈ (check_rate_limit subs now).1,
        listMin (check_rate_limit subs now).1 ≤ t) ∧
      (∀ t, t ∈ (check_rate_limit subs now).1 ↔ t ∈ subs ∧ now - t < windowUs)) := by
  set r := check_rate_limit subs now with hr
  have hcount : subs.countP (fun ts => decide (now - ts < windowUs)) =
      (subs.filter (fun ts => decide (now - ts < windowUs))).length :=
    List.countP_eq_length_filter _ _
  by_cases hle : RATE_LIMIT_COUNT ≤
      (subs.filter (fun ts => decide (now - ts < windowUs))).length
  · have hck : r = (subs.filter (fun ts => decide (now - ts < windowUs)), false,
        Int.tdiv ((listMin (subs.filter (fun ts => decide (now - ts < windowUs))) : Int)
          + (windowUs : Int) - (now : Int)) (usPerSecond : Int)) := by
      rw [hr]
      simp [check_rate_limit, hle]
    have hne : subs.filter (fun ts => decide (now - ts < windowUs)) ≠ [] := by
      intro he
      rw [he] at hle
      simp [RATE_LIMIT_COUNT] at hle
    have hmem := listMin_mem _ hne
    have hwin : now - listMin (subs.filter (fun ts => decide (now - ts < windowUs)))
        < windowUs := by
      have h2 := (List.mem_filter.mp hmem).2
      simpa using h2
    refine ⟨by rw [hck]; simpa [hcount] using hle, fun _ => ?_⟩
    refine ⟨by rw [hck], ?_, by rw [hck]; exact hmem, ?_, ?_⟩
    · rw [hck]
      apply Int.tdiv_nonneg
      · omega
      · norm_num [usPerSecond]
    · rw [hck]
      intro t ht
      exact listMin_le _ t ht
    · rw [hck]
      intro t
      simp [List.mem_filter]
  · have hck : r = (subs.filter (fun ts => decide (now - ts < windowUs)), true, 0) := by
      rw [hr]
      simp [check_rate_limit, hle]
    constructor
    · rw [hck]
      simp only [Bool.true_eq_false, false_iff]
      rw [hcount]
      exact hle
    · rw [hck]
      intro h
      exact absurd h (by simp)

/-- C6 witness: three instant submissions, checked 5 microseconds later. -/
theorem C6_rate_limiter_spec_witness :
    let r := check_rate_limit [0, 0, 0] 5
    (r.2.1 = false ↔
        RATE_LIMIT_COUNT ≤ List.countP (fun ts => decide (5 - ts < windowUs)) [0, 0, 0]) ∧
    (r.2.1 = false →
      r.2.2 = Int.tdiv ((listMin r.1 : Int) + (windowUs : Int) - (5 : Int))
          (usPerSecond : Int) ∧
      0 ≤ r.2.2 ∧
      listMin r.1 ∈ r.1 ∧
      (∀ t ∈ r.1, listMin r.1 ≤ t) ∧
      (∀ t, t ∈ r.1 ↔ t ∈ [0, 0, 0] ∧ 5 - t < windowUs)) :=
  C6_rate_limiter_spec [0, 0, 0] 5

/-- C3 counterexample: with three submissions recorded at time 0 and the
fourth call at 299.5 s (still inside the 300 s window of all three), the
call is denied but `waitSeconds` is `int(0.5) = 0`, refuting
`waitSeconds > 0`; and a retry after those 0 seconds have elapsed is
denied again, refuting the retry clause. -/
theorem C3_counterexample :
    (check_rate_limit [0, 0, 0] 299500000).2.1 = false ∧
    (check_rate_limit [0, 0, 0] 299500000).2.2 = 0 ∧
    ¬ (0 < (check_rate_limit [0, 0, 0] 299500000).2.2) ∧
    (check_rate_limit [0, 0, 0] (299500000 + 0)).2.1 = false := by
  decide

/-- The first component returned by `check_rate_limit` is the pruned
list in both branches (shared helper). -/
theorem check_rate_limit_fst (subs : List Nat) (now : Nat) :
    (check_rate_limit subs now).1 =
      subs.filter (fun ts => decide (now - ts < windowUs)) := by
  by_cases hle : RATE_LIMIT_COUNT ≤
      (subs.filter (fun ts => decide (now - ts < windowUs))).length <;>
    simp [check_rate_limit, hle]

/-- Filtering drops length strictly when some member fails the
predicate (shared helper). -/
theorem length_filter_lt_of_mem_not {α : Type} (p : α → Bool) (x : α) :
    ∀ (l : List α), x ∈ l → p x = false → (l.filter p).length < l.length
  | [], hx, _ => by cases hx
  | a :: t, hx, hpx => by
    rw [List.filter_cons]
    rcases List.mem_cons.mp hx with rfl | hxt
    · rw [hpx, if_neg (by simp)]
      exact Nat.lt_succ_of_le (List.length_filter_le p t)
    · by_cases hpa : p a = true
      · rw [if_pos hpa]
        simpa using Nat.succ_lt_succ (length_filter_lt_of_mem_not p x t hxt hpx)
      · rw [if_neg hpa]
        exact Nat.lt_of_lt_of_le (length_filter_lt_of_mem_not p x t hxt hpx)
          (Nat.le_succ _)

/-- C3 amended: for every submitter and call time, whenever at least L
recorded timestamps lie within the trailing window the call is denied,
with waitSeconds ≥ 0 (it can be 0 when less than a whole second of the
window remains, refuting strict positivity); after a denial, a retry
made once the full window W has elapsed since the oldest retained
timestamp is admitted, provided the stored window holds at most L
timestamps — always true in reachable states, because a timestamp is
recorded only on admission; and in the L=3, W=300 scenario with three
instant submissions, the fourth instant call is rate-limited with
waitSeconds = 300 (so 0 < waitSeconds ≤ W) and a retry made once those
300 s have elapsed is admitted. -/
theorem C3_amended_rate_window (subs : List Nat) (now retryAt : Nat) :
    0 ≤ (check_rate_limit subs now).2.2 ∧
    (RATE_LIMIT_COUNT ≤ subs.countP (fun ts => decide (now - ts < windowUs)) →
      (check_rate_limit subs now).2.1 = false) ∧
    ((check_rate_limit subs now).2.1 = false →
      (check_rate_limit subs now).1.length ≤ RATE_LIMIT_COUNT →
      listMin (check_rate_limit subs now).1 + windowUs ≤ retryAt →
      (check_rate_limit (check_rate_limit subs now).1 retryAt).2.1 = true) ∧
    (let s0 : BotState := ⟨[], 1, [], []⟩
     let r1 := handle_private_message [1] s0 7 7 "S" none (msgText "hello") 0
       (fun _ => none)
     let r2 := handle_private_message [1] r1.1 7 7 "S" none (msgText "hello") 0
       (fun _ => none)
     let r3 := handle_private_message [1] r2.1 7 7 "S" none (msgText "hello") 0
       (fun _ => none)
     let r4 := handle_private_message [1] r3.1 7 7 "S" none (msgText "hello") 0
       (fun _ => none)
     let r5 := handle_private_message [1] r4.1 7 7 "S" none (msgText "hello")
       300000000 (fun _ => none)
     r1.2.2 = .accepted 1 1 ∧ r2.2.2 = .accepted 2 2 ∧ r3.2.2 = .accepted 3 3 ∧
     r4.2.2 = .rateLimited 300 ∧ (0 : Int) < 300 ∧ 300 ≤ RATE_LIMIT_WINDOW ∧
     r5.2.2 = .accepted 4 4) := by
  refine ⟨check_rate_limit_wait_nonneg subs now, ?_, ?_, by decide⟩
  · intro hcount
    have hlen : RATE_LIMIT_COUNT ≤
        (subs.filter (fun ts => decide (now - ts < windowUs))).length := by
      rwa [List.countP_eq_length_filter] at hcount
    simp [check_rate_limit, hlen]
  · intro hden hlen hretry
    have hdeny : RATE_LIMIT_COUNT ≤
        (subs.filter (fun ts => decide (now - ts < windowUs))).length := by
      by_contra hnot
      simp [check_rate_limit, hnot] at hden
    set P := (check_rate_limit subs now).1 with hPdef
    have hne : P ≠ [] := by
      rw [hPdef, check_rate_limit_fst]
      intro he
      rw [he] at hdeny
      simp [RATE_LIMIT_COUNT] at hdeny
    have hmem := listMin_mem _ hne
    have hfalse : decide (retryAt - listMin P < windowUs) = false := by
      simp only [decide_eq_false_iff_not, not_lt]
      omega
    have hlt := length_filter_lt_of_mem_not
      (fun ts => decide (retryAt - ts < windowUs)) _ _ hmem hfalse
    have hnotle : ¬ (RATE_LIMIT_COUNT ≤
        (P.filter (fun ts => decide (retryAt - ts < windowUs))).length) := by
      omega
    simp [check_rate_limit, hnotle]

/-- C3 amended witness: three instant submissions, a denied fourth call
at 299.5 s with wait 0, and an admitted retry at the 300 s mark. -/
theorem C3_amended_rate_window_witness :
    0 ≤ (check_rate_limit [0, 0, 0] 299500000).2.2 ∧
    (check_rate_limit [0, 0, 0] 299500000).2.1 = false ∧
    (check_rate_limit (check_rate_limit [0, 0, 0] 299500000).1 300000000).2.1 =
      true :=
  ⟨(C3_amended_rate_window [0, 0, 0] 299500000 300000000).1,
   (C3_amended_rate_window [0, 0, 0] 299500000 300000000).2.1 (by decide),
   (C3_amended_rate_window [0, 0, 0] 299500000 300000000).2.2.1 (by decide)
     (by decide) (by decide)⟩

/-- C2: the presence check and the removal run in separate
`queue_lock` sections, and a task can yield between them (lock
acquisition suspends whenever the lock is contended, e.g. while another
handler awaits a reply holding the lock at line 158).  Under the
schedule check-A, check-B, commit-A, commit-B both the approving and
the rejecting moderator observe the id present, both finish as applied,
and both effect sets are emitted: the publish AND the rejection notice.
The claim (exactly one applied, one NotFound, one effect) is the
specified intent; the code violates it. -/
theorem C2_double_application_race :
    let entryT : Entry := sampleEntry (msgText "hi") 42
    let init : ConcState :=
      { queue := [(1, entryT)]
        tasks := [⟨10, "approve", 1, .toCheck⟩, ⟨11, "reject", 1, .toCheck⟩]
        effects := [] }
    let final := cbRun [10, 11] init [0, 1, 0, 1]
    final.tasks = [⟨10, "approve", 1, .finished true⟩,
      ⟨11, "reject", 1, .finished true⟩] ∧
    final.effects = [.publishText "hi", .approvedCb 1, .approvedNotice 42,
      .rejectedCb 1, .rejectedNotice 42] ∧
    final.tasks.countP (fun t => decide (t.phase = .finished true)) = 2 ∧
    Effect.notFoundCb ∉ final.effects ∧
    final.queue = [] := by
  decide

/-- C1 counterexample: a text submission whose moderator override is
present but equal to the empty string.  The claim says approve
publishes the override (the empty string); the code computes
`entry.get("edited_text") or entry["text"]`, treats the empty override
as falsy, and publishes the original text instead. -/
theorem C1_counterexample :
    let e := { sampleEntry (msgText "hello") 42 with editedText := some "" }
    let st : BotState := ⟨[(1, e)], 2, [], []⟩
    let r := callback_handler [9] st 9 "approve" 1 true
    e.editedText = some "" ∧
    r.2 = [.publishText "hello", .approvedCb 1, .approvedNotice 42] ∧
    Effect.publishText "" ∉ r.2 ∧
    qlookup r.1.queue 1 = none := by
  decide

/-- C1 amended: for every submission present in the store, approve
removes it and publishes the override when present AND non-empty,
otherwise the original (the text field for text submissions, the
caption for media, an empty effective caption sent as no caption), as
expressed by the spec-side selection `selectedPublish`. -/
theorem C1_amended_approve_publish (admins : List Int) (st : BotState)
    (actor : Int) (qid : Nat) (entry : Entry)
    (hadm : actor ∈ admins) (hq : qlookup st.queue qid = some entry) :
    let r := callback_handler admins st actor "approve" qid true
    qlookup r.1.queue qid = none ∧
    r.2 = selectedPublish entry ++ [.approvedCb qid, .approvedNotice entry.chatId] := by
  intro r
  have hcb : r = ({ st with queue := qremove st.queue qid },
      publishEffectsOf entry ++ [.approvedCb qid, .approvedNotice entry.chatId]) := by
    simp [r, callback_handler, hadm, hq]
  rw [hcb]
  exact ⟨qlookup_qremove_self st.queue qid,
    by rw [publishEffectsOf_eq_selectedPublish]⟩

/-- C1 amended witness: a photo submission with a non-empty edited
caption is published with the edited caption. -/
theorem C1_amended_approve_publish_witness :
    let e := { sampleEntry (msgPhoto "orig") 42 with editedCaption := some "new" }
    let st : BotState := ⟨[(3, e)], 4, [], []⟩
    let r := callback_handler [9] st 9 "approve" 3 true
    qlookup r.1.queue 3 = none ∧
    r.2 = selectedPublish e ++ [.approvedCb 3, .approvedNotice e.chatId] :=
  C1_amended_approve_publish [9]
    ⟨[(3, { sampleEntry (msgPhoto "orig") 42 with editedCaption := some "new" })],
      4, [], []⟩ 9 3
    { sampleEntry (msgPhoto "orig") 42 with editedCaption := some "new" }
    (by decide) (by decide)

/-- C8: if the channel publish raises during approve of a present
submission, the failure is reported to the approving moderator (the
error edit at line 420) and nothing is rolled back: the resulting
store state equals the state after a successful publish, and the id is
gone from the queue. -/
theorem C8_publish_failure_no_rollback (admins : List Int) (st : BotState)
    (actor : Int) (qid : Nat) (entry : Entry)
    (hadm : actor ∈ admins) (hq : qlookup st.queue qid = some entry) :
    let rf := callback_handler admins st actor "approve" qid false
    let rs := callback_handler admins st actor "approve" qid true
    rf.1 = rs.1 ∧
    qlookup rf.1.queue qid = none ∧
    rf.2 = [.postErrorCb qid] := by
  intro rf rs
  have hf : rf = ({ st with queue := qremove st.queue qid }, [.postErrorCb qid]) := by
    simp [rf, callback_handler, hadm, hq]
  have hs : rs = ({ st with queue := qremove st.queue qid },
      publishEffectsOf entry ++ [.approvedCb qid, .approvedNotice entry.chatId]) := by
    simp [rs, callback_handler, hadm, hq]
  rw [hf, hs]
  exact ⟨rfl, qlookup_qremove_self st.queue qid, rfl⟩

/-- C8 witness. -/
theorem C8_publish_failure_no_rollback_witness :
    let e := sampleEntry (msgText "hello") 42
    let st : BotState := ⟨[(1, e)], 2, [], []⟩
    let rf := callback_handler [9] st 9 "approve" 1 false
    let rs := callback_handler [9] st 9 "approve" 1 true
    rf.1 = rs.1 ∧
    qlookup rf.1.queue 1 = none ∧
    rf.2 = [.postErrorCb 1] :=
  C8_publish_failure_no_rollback [9]
    ⟨[(1, sampleEntry (msgText "hello") 42)], 2, [], []⟩ 9 1
    (sampleEntry (msgText "hello") 42) (by decide) (by decide)

/-- C5 counterexample: the `/cancel` command handler (source lines
515-517) performs no moderator check.  A non-moderator invoking
cancelEdit through it gets the "Edit cancelled" reply, not an
Unauthorized error. -/
theorem C5_counterexample :
    let st : BotState := ⟨[], 1, [], []⟩
    let r := cancel_edit st 2 2
    (2 : Int) ∉ ([1] : List Int) ∧
    r.2 = [.cancelEditReply 2] ∧
    Effect.notAuthorizedCb ∉ r.2 ∧
    Effect.notAuthorizedReply 2 ∉ r.2 := by
  decide

/-- C5 amended: every callback-routed action (approve, reject,
requestEdit, cancel-edit callback, viewDetails, back — any action
string) by a non-moderator yields exactly the Unauthorized reply and
leaves the state untouched; the `/cancel` command path instead performs
no authorization check: it clears only the invoking user's own edit
session (never set for a non-moderator) and replies "Edit cancelled"
with no Unauthorized surfaced. -/
theorem C5_amended_unauthorized (admins : List Int) (st : BotState)
    (actor : Int) (action : String) (qid : Nat) (chatId : Int)
    (h : actor ∉ admins) :
    callback_handler admins st actor action qid true = (st, [.notAuthorizedCb]) ∧
    (let rc := cancel_edit st actor chatId
     rc.1.queue = st.queue ∧
     rc.1.userSubmissions = st.userSubmissions ∧
     rc.1.nextQid = st.nextQid ∧
     editingOf rc.1 actor = none ∧
     (∀ u, u ≠ actor → editingOf rc.1 u = editingOf st u) ∧
     rc.2 = [.cancelEditReply chatId] ∧
     Effect.notAuthorizedCb ∉ rc.2 ∧
     Effect.notAuthorizedReply chatId ∉ rc.2) := by
  constructor
  · simp [callback_handler, h]
  · exact ⟨rfl, rfl, rfl, editingOf_clearEditing_self st actor,
      fun u hu => editingOf_clearEditing_other st actor u hu, rfl,
      by simp [cancel_edit], by simp [cancel_edit]⟩

/-- C5 amended witness. -/
theorem C5_amended_unauthorized_witness :
    callback_handler [1] ⟨[], 1, [], []⟩ 2 "approve" 1 true =
      (⟨[], 1, [], []⟩, [.notAuthorizedCb]) ∧
    (let rc := cancel_edit (⟨[], 1, [], []⟩ : BotState) 2 7
     rc.1.queue = [] ∧
     rc.1.userSubmissions = [] ∧
     rc.1.nextQid = 1 ∧
     editingOf rc.1 2 = none ∧
     (∀ u, u ≠ 2 → editingOf rc.1 u = editingOf ⟨[], 1, [], []⟩ u) ∧
     rc.2 = [.cancelEditReply 7] ∧
     Effect.notAuthorizedCb ∉ rc.2 ∧
     Effect.notAuthorizedReply 7 ∉ rc.2) :=
  C5_amended_unauthorized [1] ⟨[], 1, [], []⟩ 2 "approve" 1 7 (by decide)

/-- C4 counterexample: a moderator with an active edit session whose
target is still present sends a free-text input while rate-limited
(three of their own submissions recorded within the window).  The
handler checks the rate limit before edit-mode routing (line 145 before
line 164), so the outcome is a RateLimited denial: the edit is not
applied and the session is not cleared — refuting both "routed as the
edit payload" and "never a rate-limit denial". -/
theorem C4_counterexample :
    let e := sampleEntry (msgText "orig") 50
    let st : BotState := ⟨[(5, e)], 6, [(1, [0, 0, 0])], [(1, 5)]⟩
    let r := handle_private_message [1] st 1 1 "M" none (msgText "new") 0
      (fun _ => none)
    r.2.2 = .rateLimited 300 ∧
    editingOf r.1 1 = some 5 ∧
    qlookup r.1.queue 5 = some e ∧
    e.editedText = none ∧ e.editedCaption = none := by
  decide

/-- C4 amended: provided the moderator passes the rate limiter and the
queue is below capacity, a free-text input from a moderator with an
active edit session whose target is present is routed as the edit
payload: the matching override is set, the session is cleared, and the
outcome is EditApplied(id).  (When either gate fails, the input is
denied as RateLimited / QueueFull and the session stays active, as the
counterexample shows.) -/
theorem C4_amended_edit_routing (admins : List Int) (st : BotState)
    (uid chatId : Int) (name : String) (username : Option String)
    (msg : Msg) (now : Nat) (sentIds : Int → Option Nat)
    (qid : Nat) (entry : Entry)
    (hadm : uid ∈ admins)
    (hsess : editingOf st uid = some qid)
    (hqid : qid ≠ 0)
    (hrate : (check_rate_limit (subsOf st uid) now).2.1 = true)
    (hfull : st.queue.length < MAX_QUEUE_SIZE)
    (htext : msg.text ≠ "")
    (hentry : qlookup st.queue qid = some entry) :
    (handle_private_message admins st uid chatId name username msg now sentIds).2.2 =
        .editApplied qid ∧
    editingOf (handle_private_message admins st uid chatId name username msg now
        sentIds).1 uid = none ∧
    qlookup (handle_private_message admins st uid chatId name username msg now
        sentIds).1.queue qid =
      some (if entry.hasMedia
        then { entry with editedCaption := some msg.text }
        else { entry with editedText := some msg.text }) := by
  have hsess2 : editingOf (setSubs st uid (check_rate_limit (subsOf st uid) now).1)
      uid = some qid := hsess
  have hentry2 : qlookup (setSubs st uid
      (check_rate_limit (subsOf st uid) now).1).queue qid = some entry := hentry
  have het : handle_edit_text admins
      (setSubs st uid (check_rate_limit (subsOf st uid) now).1) uid chatId msg.text =
      (clearEditing { setSubs st uid (check_rate_limit (subsOf st uid) now).1 with
          queue := qupdate (setSubs st uid
            (check_rate_limit (subsOf st uid) now).1).queue qid
            (if entry.hasMedia
              then { entry with editedCaption := some msg.text }
              else { entry with editedText := some msg.text }) } uid,
        [.adminViewUpdate uid qid, .editDoneReply chatId], .applied qid) := by
    simp only [handle_edit_text, eq_true hadm, if_true, hsess2, Option.getD_some,
      eq_false hqid, if_false, hentry2]
  have hrate' : ((check_rate_limit (subsOf st uid) now).2.1 = false) = False := by
    rw [hrate]
    simp
  have hfull2 : (MAX_QUEUE_SIZE ≤ (setSubs st uid
      (check_rate_limit (subsOf st uid) now).1).queue.length) = False := by
    have h1 : (setSubs st uid (check_rate_limit (subsOf st uid) now).1).queue =
        st.queue := rfl
    rw [h1]
    exact eq_false (not_le.mpr hfull)
  have hedit2 : (uid ∈ admins ∧ (editingOf (setSubs st uid
      (check_rate_limit (subsOf st uid) now).1) uid).getD 0 ≠ 0) = True := by
    refine eq_true ⟨hadm, ?_⟩
    rw [hsess2]
    simpa using hqid
  have htext' : (msg.text ≠ "") = True := eq_true htext
  have key : handle_private_message admins st uid chatId name username msg now
      sentIds =
      ((handle_edit_text admins (setSubs st uid
          (check_rate_limit (subsOf st uid) now).1) uid chatId msg.text).1,
       (handle_edit_text admins (setSubs st uid
          (check_rate_limit (subsOf st uid) now).1) uid chatId msg.text).2.1,
       PmOutcome.editApplied qid) := by
    simp only [handle_private_message, hrate', if_false, hfull2, hedit2, if_true,
      htext', het]
  rw [key, het]
  refine ⟨rfl, editingOf_clearEditing_self _ uid, ?_⟩
  have hq : (clearEditing { setSubs st uid
      (check_rate_limit (subsOf st uid) now).1 with
        queue := qupdate (setSubs st uid
          (check_rate_limit (subsOf st uid) now).1).queue qid
          (if entry.hasMedia
            then { entry with editedCaption := some msg.text }
            else { entry with editedText := some msg.text }) } uid).queue =
      qupdate st.queue qid
        (if entry.hasMedia
          then { entry with editedCaption := some msg.text }
          else { entry with editedText := some msg.text }) := rfl
  rw [hq]
  exact qlookup_qupdate_self st.queue qid entry _ hentry

/-- C4 amended witness. -/
theorem C4_amended_edit_routing_witness :
    let e := sampleEntry (msgText "orig") 50
    let st : BotState := ⟨[(5, e)], 6, [], [(1, 5)]⟩
    (handle_private_message [1] st 1 1 "M" none (msgText "new") 0
        (fun _ => none)).2.2 = .editApplied 5 ∧
    editingOf (handle_private_message [1] st 1 1 "M" none (msgText "new") 0
        (fun _ => none)).1 1 = none ∧
    qlookup (handle_private_message [1] st 1 1 "M" none (msgText "new") 0
        (fun _ => none)).1.queue 5 =
      some (if (sampleEntry (msgText "orig") 50).hasMedia
        then { sampleEntry (msgText "orig") 50 with editedCaption := some "new" }
        else { sampleEntry (msgText "orig") 50 with editedText := some "new" }) :=
  C4_amended_edit_routing [1]
    ⟨[(5, sampleEntry (msgText "orig") 50)], 6, [], [(1, 5)]⟩ 1 1 "M" none
    (msgText "new") 0 (fun _ => none) 5 (sampleEntry (msgText "orig") 50)
    (by decide) (by decide) (by decide) (by decide) (by decide) (by decide)
    (by decide)

/-- C7: when a submission attempt is denied as RateLimited or
QueueFull, no partial state is created: the queue is unchanged, the id
counter is not advanced, the edit-session table is unchanged, no new
timestamp is recorded for the submitter (the stored window is the
pruned subset of the old one), and other submitters' windows are
untouched. -/
theorem C7_denied_no_partial_state (admins : List Int) (st : BotState)
    (uid chatId : Int) (name : String) (username : Option String)
    (msg : Msg) (now : Nat) (sentIds : Int → Option Nat)
    (h : (∃ w, (handle_private_message admins st uid chatId name username msg now
            sentIds).2.2 = .rateLimited w) ∨
         (handle_private_message admins st uid chatId name username msg now
            sentIds).2.2 = .queueFull) :
    (handle_private_message admins st uid chatId name username msg now
        sentIds).1.queue = st.queue ∧
    (handle_private_message admins st uid chatId name username msg now
        sentIds).1.nextQid = st.nextQid ∧
    (handle_private_message admins st uid chatId name username msg now
        sentIds).1.editing = st.editing ∧
    (∀ t ∈ subsOf (handle_private_message admins st uid chatId name username msg
        now sentIds).1 uid, t ∈ subsOf st uid) ∧
    (∀ u, u ≠ uid → subsOf (handle_private_message admins st uid chatId name
        username msg now sentIds).1 u = subsOf st u) := by
  have hgoal : ∀ l, (∀ t ∈ l, t ∈ subsOf st uid) →
      (setSubs st uid l).queue = st.queue ∧
      (setSubs st uid l).nextQid = st.nextQid ∧
      (setSubs st uid l).editing = st.editing ∧
      (∀ t ∈ subsOf (setSubs st uid l) uid, t ∈ subsOf st uid) ∧
      (∀ u, u ≠ uid → subsOf (setSubs st uid l) u = subsOf st u) := by
    intro l hl
    exact ⟨rfl, rfl, rfl,
      by rw [subsOf_setSubs_self]; exact hl,
      fun u hu => subsOf_setSubs_other st uid u l hu⟩
  have hsub : ∀ t ∈ (check_rate_limit (subsOf st uid) now).1, t ∈ subsOf st uid := by
    intro t ht
    have : t ∈ (subsOf st uid).filter (fun ts => decide (now - ts < windowUs)) := by
      simpa [check_rate_limit] using
        (by
          by_cases hle : RATE_LIMIT_COUNT ≤ ((subsOf st uid).filter
              (fun ts => decide (now - ts < windowUs))).length <;>
            simpa [check_rate_limit, hle] using ht)
    exact List.mem_of_mem_filter this
  by_cases hden : (check_rate_limit (subsOf st uid) now).2.1 = false
  · have key : handle_private_message admins st uid chatId name username msg now
        sentIds =
        (setSubs st uid (check_rate_limit (subsOf st uid) now).1,
          [.rateLimitedReply chatId (check_rate_limit (subsOf st uid) now).2.2],
          .rateLimited (check_rate_limit (subsOf st uid) now).2.2) := by
      simp only [handle_private_message, eq_true hden, if_true]
    rw [key]
    exact hgoal _ hsub
  · have hallow : (check_rate_limit (subsOf st uid) now).2.1 = true := by
      cases hb : (check_rate_limit (subsOf st uid) now).2.1
      · exact absurd hb hden
      · rfl
    have hden' : ((check_rate_limit (subsOf st uid) now).2.1 = false) = False :=
      eq_false hden
    by_cases hfull : MAX_QUEUE_SIZE ≤ (setSubs st uid
        (check_rate_limit (subsOf st uid) now).1).queue.length
    · have key : handle_private_message admins st uid chatId name username msg now
          sentIds =
          (setSubs st uid (check_rate_limit (subsOf st uid) now).1,
            [.queueFullReply chatId], .queueFull) := by
        simp only [handle_private_message, hden', if_false, eq_true hfull, if_true]
      rw [key]
      exact hgoal _ hsub
    · have hfull' : (MAX_QUEUE_SIZE ≤ (setSubs st uid
          (check_rate_limit (subsOf st uid) now).1).queue.length) = False :=
        eq_false hfull
      by_cases hedit : uid ∈ admins ∧ (editingOf (setSubs st uid
          (check_rate_limit (subsOf st uid) now).1) uid).getD 0 ≠ 0
      · by_cases htext : msg.text ≠ ""
        · have key : (handle_private_message admins st uid chatId name username msg
              now sentIds).2.2 =
              (match (handle_edit_text admins (setSubs st uid
                  (check_rate_limit (subsOf st uid) now).1) uid chatId
                  msg.text).2.2 with
                | .applied q => PmOutcome.editApplied q
                | .targetGone q => PmOutcome.editTargetGone q
                | .noSession => PmOutcome.editNoSession
                | .unauthorized => PmOutcome.editUnauthorized) := by
            simp only [handle_private_message, hden', if_false, hfull', eq_true hedit,
              if_true, eq_true htext]
          exfalso
          rcases h with ⟨w, hw⟩ | hw <;>
            rw [key] at hw <;>
            revert hw <;>
            rcases (handle_edit_text admins (setSubs st uid
              (check_rate_limit (subsOf st uid) now).1) uid chatId
              msg.text).2.2 <;> simp
        · have key : (handle_private_message admins st uid chatId name username msg
              now sentIds).2.2 = .editOnlyText := by
            simp only [handle_private_message, hden', if_false, hfull', eq_true hedit,
              if_true, eq_false htext]
          exfalso
          rcases h with ⟨w, hw⟩ | hw <;> rw [key] at hw <;> simp at hw
      · exfalso
        rcases h with ⟨w, hw⟩ | hw <;>
          simp only [handle_private_message, hden', if_false, hfull',
            eq_false hedit] at hw <;>
          exact PmOutcome.noConfusion hw

/-- C7 witness: a rate-limited submission attempt. -/
theorem C7_denied_no_partial_state_witness :
    let st : BotState := ⟨[], 1, [(7, [0, 0, 0])], []⟩
    (handle_private_message [1] st 7 7 "S" none (msgText "x") 0
        (fun _ => none)).1.queue = st.queue ∧
    (handle_private_message [1] st 7 7 "S" none (msgText "x") 0
        (fun _ => none)).1.nextQid = st.nextQid ∧
    (handle_private_message [1] st 7 7 "S" none (msgText "x") 0
        (fun _ => none)).1.editing = st.editing ∧
    (∀ t ∈ subsOf (handle_private_message [1] st 7 7 "S" none (msgText "x") 0
        (fun _ => none)).1 7, t ∈ subsOf st 7) ∧
    (∀ u, u ≠ 7 → subsOf (handle_private_message [1] st 7 7 "S" none (msgText "x")
        0 (fun _ => none)).1 u = subsOf st u) :=
  C7_denied_no_partial_state [1] ⟨[], 1, [(7, [0, 0, 0])], []⟩ 7 7 "S" none
    (msgText "x") 0 (fun _ => none) (Or.inl ⟨300, by decide⟩)

/-- C9: approve or reject on an id under some moderator's active edit
session still succeeds and removes the submission; the session survives
untouched (stale), and the consume step of that moderator's next text
input (`handle_edit_text`) finds the submission gone, replies with the
benign not-found message, clears the session, and leaves the queue
unchanged. -/
theorem C9_remove_wins_stale_session (admins : List Int) (st : BotState)
    (actor modId chatId : Int) (qid : Nat) (entry : Entry) (txt : String)
    (hactor : actor ∈ admins) (hmod : modId ∈ admins)
    (hq : qlookup st.queue qid = some entry)
    (hsess : editingOf st modId = some qid) (hqid : qid ≠ 0) :
    let ra := callback_handler admins st actor "approve" qid true
    let rr := callback_handler admins st actor "reject" qid true
    qlookup ra.1.queue qid = none ∧
    qlookup rr.1.queue qid = none ∧
    editingOf ra.1 modId = some qid ∧
    (let re := handle_edit_text admins ra.1 modId chatId txt
     re.1.queue = ra.1.queue ∧
     editingOf re.1 modId = none ∧
     re.2.1 = [.editNotFoundReply chatId] ∧
     re.2.2 = .targetGone qid) := by
  intro ra rr
  have ha : ra = ({ st with queue := qremove st.queue qid },
      publishEffectsOf entry ++ [.approvedCb qid, .approvedNotice entry.chatId]) := by
    simp [ra, callback_handler, hactor, hq]
  have hr : rr = ({ st with queue := qremove st.queue qid },
      [.rejectedCb qid, .rejectedNotice entry.chatId]) := by
    simp [rr, callback_handler, hactor, hq]
  have hqa : qlookup ra.1.queue qid = none := by
    rw [ha]
    exact qlookup_qremove_self st.queue qid
  have hea : editingOf ra.1 modId = some qid := by
    rw [ha]
    exact hsess
  have het : handle_edit_text admins ra.1 modId chatId txt =
      (clearEditing ra.1 modId, [.editNotFoundReply chatId], .targetGone qid) := by
    simp only [handle_edit_text, eq_true hmod, if_true, hea, Option.getD_some,
      eq_false hqid, if_false, hqa]
  refine ⟨hqa, by rw [hr]; exact qlookup_qremove_self st.queue qid, hea, ?_⟩
  intro re
  have hre : re = (clearEditing ra.1 modId, [.editNotFoundReply chatId],
      .targetGone qid) := het
  rw [hre]
  exact ⟨rfl, editingOf_clearEditing_self _ modId, rfl, rfl⟩

/-- C9 witness. -/
theorem C9_remove_wins_stale_session_witness :
    let e := sampleEntry (msgText "hello") 42
    let st : BotState := ⟨[(1, e)], 2, [], [(9, 1)]⟩
    let ra := callback_handler [8, 9] st 8 "approve" 1 true
    let rr := callback_handler [8, 9] st 8 "reject" 1 true
    qlookup ra.1.queue 1 = none ∧
    qlookup rr.1.queue 1 = none ∧
    editingOf ra.1 9 = some 1 ∧
    (let re := handle_edit_text [8, 9] ra.1 9 9 "late edit"
     re.1.queue = ra.1.queue ∧
     editingOf re.1 9 = none ∧
     re.2.1 = [.editNotFoundReply 9] ∧
     re.2.2 = .targetGone 1) :=
  C9_remove_wins_stale_session [8, 9]
    ⟨[(1, sampleEntry (msgText "hello") 42)], 2, [], [(9, 1)]⟩ 8 9 9 1
    (sampleEntry (msgText "hello") 42) "late edit"
    (by decide) (by decide) (by decide) (by decide) (by decide)

/-- C10: applying an edit to a present submission mutates only the
override field matching its kind (edited caption for media, edited text
for text); the original text and caption, the stored message, the
sender fields, the timestamp, the opposite override, and every other
stored submission are unchanged, and the edit session is cleared. -/
theorem C10_edit_frame (admins : List Int) (st : BotState)
    (uid chatId : Int) (txt : String) (qid : Nat) (entry : Entry)
    (hadm : uid ∈ admins) (hsess : editingOf st uid = some qid) (hqid : qid ≠ 0)
    (hq : qlookup st.queue qid = some entry) :
    let r := handle_edit_text admins st uid chatId txt
    let entry' := if entry.hasMedia
      then { entry with editedCaption := some txt }
      else { entry with editedText := some txt }
    qlookup r.1.queue qid = some entry' ∧
    entry'.text = entry.text ∧
    entry'.caption = entry.caption ∧
    entry'.msg = entry.msg ∧
    entry'.senderId = entry.senderId ∧
    entry'.senderInfo = entry.senderInfo ∧
    entry'.senderName = entry.senderName ∧
    entry'.senderUsername = entry.senderUsername ∧
    entry'.timestamp = entry.timestamp ∧
    entry'.chatId = entry.chatId ∧
    (entry.hasMedia = true → entry'.editedText = entry.editedText) ∧
    (entry.hasMedia = false → entry'.editedCaption = entry.editedCaption) ∧
    (∀ q2, q2 ≠ qid → qlookup r.1.queue q2 = qlookup st.queue q2) ∧
    editingOf r.1 uid = none := by
  intro r entry'
  have het : r = (clearEditing { st with
      queue := qupdate st.queue qid entry' } uid,
      [.adminViewUpdate uid qid, .editDoneReply chatId], .applied qid) := by
    simp only [r, entry', handle_edit_text, eq_true hadm, if_true, hsess,
      Option.getD_some, eq_false hqid, if_false, hq]
  have hqueue : r.1.queue = qupdate st.queue qid entry' := by
    rw [het]
    rfl
  refine ⟨?_, ?_, ?_, ?_, ?_, ?_, ?_, ?_, ?_, ?_, ?_, ?_, ?_, ?_⟩
  · rw [hqueue]
    exact qlookup_qupdate_self st.queue qid entry entry' hq
  · show entry'.text = entry.text
    unfold entry'
    cases entry.hasMedia <;> rfl
  · show entry'.caption = entry.caption
    unfold entry'
    cases entry.hasMedia <;> rfl
  · show entry'.msg = entry.msg
    unfold entry'
    cases entry.hasMedia <;> rfl
  · show entry'.senderId = entry.senderId
    unfold entry'
    cases entry.hasMedia <;> rfl
  · show entry'.senderInfo = entry.senderInfo
    unfold entry'
    cases entry.hasMedia <;> rfl
  · show entry'.senderName = entry.senderName
    unfold entry'
    cases entry.hasMedia <;> rfl
  · show entry'.senderUsername = entry.senderUsername
    unfold entry'
    cases entry.hasMedia <;> rfl
  · show entry'.timestamp = entry.timestamp
    unfold entry'
    cases entry.hasMedia <;> rfl
  · show entry'.chatId = entry.chatId
    unfold entry'
    cases entry.hasMedia <;> rfl
  · intro hm
    show entry'.editedText = entry.editedText
    unfold entry'
    rw [if_pos hm]
  · intro hm
    show entry'.editedCaption = entry.editedCaption
    unfold entry'
    rw [if_neg (by simp [hm])]
  · intro q2 hq2
    rw [hqueue]
    exact qlookup_qupdate_other st.queue qid q2 entry' hq2
  · rw [het]
    exact editingOf_clearEditing_self _ uid

/-- C10 witness: editing a media submission sets only the edited
caption. -/
theorem C10_edit_frame_witness :
    let e := sampleEntry (msgPhoto "cap") 42
    let st : BotState := ⟨[(1, e), (2, sampleEntry (msgText "other") 43)], 3,
      [], [(9, 1)]⟩
    let r := handle_edit_text [9] st 9 9 "newcap"
    let entry' := if e.hasMedia
      then { e with editedCaption := some "newcap" }
      else { e with editedText := some "newcap" }
    qlookup r.1.queue 1 = some entry' ∧
    entry'.text = e.text ∧
    entry'.caption = e.caption ∧
    entry'.msg = e.msg ∧
    entry'.senderId = e.senderId ∧
    entry'.senderInfo = e.senderInfo ∧
    entry'.senderName = e.senderName ∧
    entry'.senderUsername = e.senderUsername ∧
    entry'.timestamp = e.timestamp ∧
    entry'.chatId = e.chatId ∧
    (e.hasMedia = true → entry'.editedText = e.editedText) ∧
    (e.hasMedia = false → entry'.editedCaption = e.editedCaption) ∧
    (∀ q2, q2 ≠ 1 → qlookup r.1.queue q2 = qlookup st.queue q2) ∧
    editingOf r.1 9 = none :=
  C10_edit_frame [9]
    ⟨[(1, sampleEntry (msgPhoto "cap") 42), (2, sampleEntry (msgText "other") 43)],
      3, [], [(9, 1)]⟩ 9 9 "newcap" 1 (sampleEntry (msgPhoto "cap") 42)
    (by decide) (by decide) (by decide) (by decide)

end AutoBot

